import Mathlib

/-!
Verification of the futurecoder orchestration core (`backend/main/views.py`):
the progress state machine (`current_state`, `move_step`, `set_page`), the
code-submission pipeline (`run_code`), the solution-puzzle generator
(`get_solution`) and the dispatch boundary (`api_view`).

Python machinery is embedded shallowly:
* Python list indexing (which accepts negative indices counting from the end
  and raises `IndexError` out of range) is `pyGet`, returning `Option`.
* Raisable code returns `Option`; a `none` result models an exception
  propagating to the caller.
* The stdlib tokenizer (`tokenize.generate_tokens` + `Untokenizer`) and the
  model-layer defaults (`main.models`, `main.text`) are not part of the file
  under verification; they are modelled from the specification where noted.
-/

namespace Futurecoder

/-- Python list indexing `l[i]`: a non-negative index must be `< len`,
a negative index `i` with `-len ≤ i` resolves to `l[len + i]`;
anything else raises `IndexError` (modelled as `none`). -/
def pyGet {α : Type} (l : List α) (i : Int) : Option α :=
  if 0 ≤ i then l[i.toNat]?
  else if -(l.length : Int) ≤ i then l[(l.length + i).toNat]?
  else none

/-- Python `str.isspace()` on the ASCII whitespace characters: true iff the
string is non-empty and every character is whitespace. -/
def pySpaceChar (c : Char) : Bool :=
  c = ' ' || c = '\t' || c = '\n' || c = '\r' || c = '\x0b' || c = '\x0c'

/-- Python `str.isspace()`: non-empty and all characters whitespace. -/
def pyIsSpace (s : String) : Bool :=
  !s.isEmpty && s.data.all pySpaceChar

/-! ### Tokenisation (modelled from the spec)

`get_solution` delegates to `tokenize.generate_tokens` and
`tokenize.Untokenizer`, which are CPython standard library code, not part of
this repository's sources.  The spec requires of this step only: a lossless
sequence of lexical tokens whose concatenation in original order reproduces
the program text exactly, whitespace/formatting runs appearing as their own
tokens. -/

/-- Maximal runs of characters agreeing on the predicate `p`:
`charRuns p l` splits `l` into non-empty contiguous runs, adjacent characters
sharing a run exactly when `p` gives the same answer on both. -/
def charRuns (p : Char → Bool) : List Char → List (List Char)
  | [] => []
  | c :: cs =>
    match charRuns p cs with
    | [] => [[c]]
    | [] :: rest => [c] :: rest
    | (d :: ds) :: rest =>
      if p c = p d then (c :: d :: ds) :: rest
      else [c] :: (d :: ds) :: rest

/-- Modelled from the spec: the tokenisation step of the puzzle generator
(stdlib `generate_tokens`/`Untokenizer`, not under the verified sources).
The program text is split into a lossless sequence of lexical tokens —
maximal whitespace runs and maximal non-whitespace runs — whose
concatenation in original order is exactly the source text. -/
def tokenizeProgram (s : String) : List String :=
  (charRuns pySpaceChar s.data).map (fun cs => String.mk cs)

theorem charRuns_join (p : Char → Bool) (l : List Char) :
    (charRuns p l).flatten = l := by
  induction l with
  | nil => rfl
  | cons c cs ih =>
    simp only [charRuns]
    cases h : charRuns p cs with
    | nil => simp [h] at ih; simp [ih]
    | cons r rest =>
      cases r with
      | nil =>
        rw [h] at ih
        simpa using ih
      | cons d ds =>
        rw [h] at ih
        by_cases hpd : p c = p d
        · simp [hpd]; simpa using ih
        · simp [hpd]; simpa using ih

/-- Concatenation of a token sequence in original order. -/
def concatTokens : List String → String
  | [] => ""
  | t :: ts => t ++ concatTokens ts

theorem data_concatTokens_map_mk (runs : List (List Char)) :
    (concatTokens (runs.map (fun cs => String.mk cs))).data = runs.flatten := by
  induction runs with
  | nil => rfl
  | cons r rest ih =>
    simp only [List.map_cons, concatTokens, List.flatten_cons]
    rw [String.data_append]
    simp [ih]

theorem tokenizeProgram_concat (s : String) :
    concatTokens (tokenizeProgram s) = s := by
  have hdata : (concatTokens (tokenizeProgram s)).data = s.data := by
    unfold tokenizeProgram
    rw [data_concatTokens_map_mk, charRuns_join]
  exact String.ext hdata

/-! ### Data model -/

/-- A step of a page, as resolved by `getattr(page, step_name)`:
exercise steps carry a reference `solution`, other steps a literal
`program` (catalog content, `main.text`). -/
structure StepDef where
  is_exercise : Bool
  solution : String
  program : String
deriving DecidableEq

/-- A catalog page: unique `slug`, `title`, 0-based `index`, the ordered
`step_names`, and the step definitions reachable by name
(`getattr(page, name)`). -/
structure Page where
  slug : String
  title : String
  index : Nat
  step_names : List String
  step_defs : List (String × StepDef)
deriving DecidableEq

/-- `main.text.page_slugs_list`: the page slugs in catalog order. -/
def page_slugs_list (cat : List Page) : List String :=
  cat.map Page.slug

/-- `main.text.pages[slug]`: dictionary lookup of a page by slug. -/
def lookupPage (cat : List Page) (slug : String) : Option Page :=
  cat.find? (fun p => p.slug = slug)

/-- A `CodeEntry` row (`main.models.CodeEntry`): audit record of one
submission; `output` is filled in after execution. -/
structure CodeEntry where
  input : String
  source : String
  page_slug : String
  step_name : String
  user_id : Nat
  output : Option String
deriving DecidableEq

/-- The per-learner persistent state consumed by the core: current page
slug and the per-page recorded step name (`pages_progress[slug]["step_name"]`
flattened to slug → step name). -/
structure UserState where
  user_id : Nat
  page_slug : String
  pages_progress : List (String × String)
  developer_mode : Bool
deriving DecidableEq

def UserState.withProgress (st : UserState) (m : List (String × String)) :
    UserState :=
  ⟨st.user_id, st.page_slug, m, st.developer_mode⟩

def UserState.withPageSlug (st : UserState) (slug : String) : UserState :=
  ⟨st.user_id, slug, st.pages_progress, st.developer_mode⟩

def UserState.withDevMode (st : UserState) (b : Bool) : UserState :=
  ⟨st.user_id, st.page_slug, st.pages_progress, b⟩

/-- The persistent world an API call can touch: the learner's record and
the `CodeEntry` table. -/
structure World where
  user : UserState
  code_entries : List CodeEntry
deriving DecidableEq

/-- `settings.SAVE_CODE_ENTRIES`: whether submissions are persisted. -/
structure Settings where
  SAVE_CODE_ENTRIES : Bool
deriving DecidableEq

/-- Python dict update `m[k] = v`, preserving insertion order.  Modelled
from the spec for the absent-key case: the progress store accepts a write
for a page with no entry yet (the model layer `main.models`, not under the
verified sources, supplies the page's progress dict). -/
def dictSet (m : List (String × String)) (k v : String) :
    List (String × String) :=
  match m with
  | [] => [(k, v)]
  | (k0, v0) :: rest =>
    if k0 = k then (k, v) :: rest else (k0, v0) :: dictSet rest k v

/-! ### Progress state machine -/

/-- The index reported for one page by `current_state`:
`page.step_names.index(recorded)` when a step name is recorded.  Modelled
from the spec for the absent case: a page the learner has not reached
reports index 0 (the model layer, not under the verified sources, defaults
a page's progress to its first step). -/
def stepIndexOf (page : Page) (recorded : Option String) : Nat :=
  match recorded with
  | some name => page.step_names.indexOf name
  | none => 0

/-- `API.current_state`: for every page in catalog order, the index of the
learner's recorded step on that page.  Pure. -/
def current_state (cat : List Page) (st : UserState) : List Nat :=
  cat.map (fun page => stepIndexOf page (st.pages_progress.lookup page.slug))

/-- `API.move_step`: resolve the page, and when `0 ≤ step_index <
len(step_names)` record `step_names[step_index]` for that page and persist;
otherwise change nothing.  Returns the post-operation `current_state`
together with the post-operation user record. -/
def move_step (cat : List Page) (st : UserState)
    (page_index : Int) (step_index : Int) : Option (List Nat × UserState) :=
  match pyGet (page_slugs_list cat) page_index with
  | none => none
  | some page_slug =>
  match lookupPage cat page_slug with
  | none => none
  | some page =>
    let step_names := page.step_names
    let st2 :=
      if 0 ≤ step_index ∧ step_index < (step_names.length : Int) then
        st.withProgress
          (dictSet st.pages_progress page_slug (step_names.getD step_index.toNat ""))
      else st
    some (current_state cat st2, st2)

/-- `API.set_page`: set the learner's current page slug to
`page_slugs_list[index]` and persist. -/
def set_page (cat : List Page) (st : UserState) (index : Int) :
    Option UserState :=
  (pyGet (page_slugs_list cat) index).map st.withPageSlug

/-- `API.set_developer_mode`. -/
def set_developer_mode (st : UserState) (value : Bool) : UserState :=
  st.withDevMode value

/-! ### Solution-puzzle generator -/

/-- The `masked_indices` accumulator of `get_solution`: the indices `i`,
in original order, whose token is not pure whitespace
(`for i, token in enumerate(tokens): if not token.isspace(): append(i)`). -/
def maskedIndicesOf (tokens : List String) : List Nat :=
  (List.range tokens.length).filter (fun i => !pyIsSpace (tokens.getD i ""))

/-- The `mask` list of `get_solution`: starts all-`False`, set `True`
exactly at the non-whitespace token positions. -/
def maskOf (tokens : List String) : List Bool :=
  tokens.map (fun t => !pyIsSpace t)

/-- The value returned by `get_solution`. -/
structure PuzzleSpec where
  tokens : List String
  maskedIndices : List Nat
  mask : List Bool
deriving DecidableEq

/-- The puzzle built from a resolved program: tokenize, collect the mask
data, shuffle the masked indices.  `shuffle` abstracts `random.shuffle`
(an unseeded uniform permutation of the list). -/
def solutionPuzzle (shuffle : List Nat → List Nat) (program : String) :
    PuzzleSpec :=
  let tokens := tokenizeProgram program
  ⟨tokens, shuffle (maskedIndicesOf tokens), maskOf tokens⟩

/-- `API.get_solution`: resolve the page and step; an exercise step
contributes `clean_program(step.solution)` (the cleaner lives in
`main.text`, outside the verified sources, so it is a parameter here), any
other step its literal `program`; return the puzzle. -/
def get_solution (cat : List Page) (clean_program : String → String)
    (shuffle : List Nat → List Nat) (page_index step_index : Int) :
    Option PuzzleSpec :=
  match pyGet (page_slugs_list cat) page_index with
  | none => none
  | some slug =>
  match lookupPage cat slug with
  | none => none
  | some page =>
  match pyGet page.step_names step_index with
  | none => none
  | some step_name =>
  match page.step_defs.lookup step_name with
  | none => none
  | some step =>
    let program :=
      if step.is_exercise then clean_program step.solution else step.program
    some (solutionPuzzle shuffle program)

/-! ### Code-submission pipeline -/

/-- One console output fragment `{text, color}`. -/
structure Fragment where
  text : String
  color : String
deriving DecidableEq

/-- The result of `worker_result(entry_dict)` (the external execution
service).  `error` is a string, empty meaning unset (Python truthiness of
`result["error"]`); `birdseye_objects` of the payload type `β` is `none`
when absent or empty (Python truthiness of the dict). -/
structure ExecResult (β : Type) where
  output : String
  output_parts : List Fragment
  error : String
  passed : Bool
  awaiting_input : Bool
  message : String
  birdseye_objects : Option β
deriving DecidableEq

/-- The value `API.run_code` returns: either the error-only dictionary
`{error}`, or the full `{result, message, state, birdseye_url, passed}`
dictionary. -/
inductive RunCodeResponse where
  | failure (error : String)
  | success (result : List Fragment) (message : String) (state : List Nat)
      (birdseye_url : Option String) (passed : Bool)
deriving DecidableEq

/-- The synthetic prompt fragment appended when the program is not
awaiting input: `dict(text=">>> ", color="white")`. -/
def promptFragment : Fragment := ⟨">>> ", "white"⟩

/-- `API.run_code`: resolve the submission's page and step, persist an
audit entry when `SAVE_CODE_ENTRIES`, delegate to the executor, store the
output on the entry, short-circuit on an executor error, advance progress
via `move_step(page_index, step_index + 1)` when passed, append the prompt
fragment unless awaiting input, register any birdseye trace objects (the
trace store is external; `registerBirdseye` abstracts the function/call
registration of lines 103-120 and yields the last registered call id), and
assemble the response.  `worker_result` abstracts the external executor,
`renderMarkdown` the `markdown` renderer. -/
def run_code {β : Type} (cat : List Page) (settings : Settings)
    (worker_result : CodeEntry → ExecResult β)
    (renderMarkdown : String → String) (registerBirdseye : β → String)
    (w : World) (code source : String) (page_index step_index : Int) :
    Option (RunCodeResponse × World) :=
  match pyGet (page_slugs_list cat) page_index with
  | none => none
  | some page_slug =>
  match lookupPage cat page_slug with
  | none => none
  | some page =>
  match pyGet page.step_names step_index with
  | none => none
  | some step_name =>
    let entry : CodeEntry :=
      ⟨code, source, page_slug, step_name, w.user.user_id, none⟩
    let result := worker_result entry
    let entries :=
      if settings.SAVE_CODE_ENTRIES then
        w.code_entries ++ [⟨code, source, page_slug, step_name,
          w.user.user_id, some result.output⟩]
      else w.code_entries
    let w1 : World := ⟨w.user, entries⟩
    if result.error = "" then
      match (if result.passed then
               move_step cat w1.user page_index (step_index + 1)
             else some (current_state cat w1.user, w1.user)) with
      | none => none
      | some (_, user2) =>
        let w2 : World := ⟨user2, w1.code_entries⟩
        let output_parts :=
          if result.awaiting_input then result.output_parts
          else result.output_parts ++ [promptFragment]
        let birdseye_url := result.birdseye_objects.map
          (fun b => "/birdseye/ipython_call/" ++ registerBirdseye b)
        some (.success output_parts (renderMarkdown result.message)
          (current_state cat w2.user) birdseye_url result.passed, w2)
    else
      some (.failure result.error, w1)

/-! ### Dispatch boundary (`api_view`) -/

/-- A JSON value, the shape of every response `api_view` serialises. -/
inductive JsonVal where
  | null
  | bool (b : Bool)
  | num (n : Int)
  | str (s : String)
  | arr (xs : List JsonVal)
  | dict (fields : List (String × JsonVal))

/-- Whether a JSON value is a dictionary (`isinstance(result, dict)`). -/
def JsonVal.isDict : JsonVal → Bool
  | .dict _ => true
  | _ => false

/-- `api_view`'s wrapping of non-dict method results:
`if not isinstance(result, dict): result = {'result': result}`. -/
def wrapResult (v : JsonVal) : JsonVal :=
  match v with
  | .dict fields => .dict fields
  | other => .dict [("result", other)]

def fragmentJson (f : Fragment) : JsonVal :=
  .dict [("text", .str f.text), ("color", .str f.color)]

/-- The JSON rendering of a `current_state` snapshot:
`dict(pages_progress=[...])`. -/
def snapshotJson (s : List Nat) : JsonVal :=
  .dict [("pages_progress", .arr (s.map (fun n => .num (n : Int))))]

def optStrJson (o : Option String) : JsonVal :=
  match o with
  | none => .null
  | some s => .str s

def runCodeResponseJson (r : RunCodeResponse) : JsonVal :=
  match r with
  | .failure e => .dict [("error", .str e)]
  | .success result message state birdseye_url passed =>
    .dict [("result", .arr (result.map fragmentJson)),
           ("message", .str message),
           ("state", snapshotJson state),
           ("birdseye_url", optStrJson birdseye_url),
           ("passed", .bool passed)]

def puzzleJson (p : PuzzleSpec) : JsonVal :=
  .dict [("tokens", .arr (p.tokens.map JsonVal.str)),
         ("maskedIndices", .arr (p.maskedIndices.map (fun n => .num (n : Int)))),
         ("mask", .arr (p.mask.map JsonVal.bool))]

/-- The operations of the API surface reachable through `api_view` that
this development models, with their decoded arguments. -/
inductive ApiCall where
  | runCode (code source : String) (page_index step_index : Int)
  | moveStep (page_index step_index : Int)
  | setPage (index : Int)
  | currentState
  | getSolution (page_index step_index : Int)
  | setDeveloperMode (value : Bool)
deriving DecidableEq

/-- Invoking one `API` method: the raw value the method returns together
with the updated world, or `none` when the method raises. -/
def dispatch {β : Type} (cat : List Page) (settings : Settings)
    (worker_result : CodeEntry → ExecResult β)
    (renderMarkdown : String → String) (registerBirdseye : β → String)
    (clean_program : String → String) (shuffle : List Nat → List Nat)
    (w : World) : ApiCall → Option (JsonVal × World)
  | .runCode code source pi si =>
    (run_code cat settings worker_result renderMarkdown registerBirdseye
        w code source pi si).map
      (fun rw => (runCodeResponseJson rw.1, rw.2))
  | .moveStep pi si =>
    (move_step cat w.user pi si).map
      (fun sw => (snapshotJson sw.1, ⟨sw.2, w.code_entries⟩))
  | .setPage i =>
    (set_page cat w.user i).map (fun st => (.null, ⟨st, w.code_entries⟩))
  | .currentState => some (snapshotJson (current_state cat w.user), w)
  | .getSolution pi si =>
    (get_solution cat clean_program shuffle pi si).map
      (fun p => (puzzleJson p, w))
  | .setDeveloperMode v =>
    some (.null, ⟨set_developer_mode w.user v, w.code_entries⟩)

/-- What `api_view` hands back to the transport layer: the serialised
response and whether `capture_exception` reported a fault. -/
structure ApiOutcome where
  response : JsonVal
  reported : Bool

/-- The error dictionary built by `api_view`'s `except` branch:
`dict(error=dict(traceback=...))`; `tb` stands for the formatted
traceback text. -/
def errorResponse (tb : String) : JsonVal :=
  .dict [("error", .dict [("traceback", .str tb)])]

/-- `api_view`: decode the request (a `none` call models a body that fails
to parse or lacks a required argument), invoke the method, wrap a non-dict
result as `{result: ...}`; any exception anywhere inside the `try` is
caught, reported via `capture_exception`, and turned into
`dict(error=dict(traceback=...))`.  The state is returned alongside to
track persistence (a raising call mutated nothing, every modelled raise
point preceding the first write). -/
def api_view {β : Type} (cat : List Page) (settings : Settings)
    (worker_result : CodeEntry → ExecResult β)
    (renderMarkdown : String → String) (registerBirdseye : β → String)
    (clean_program : String → String) (shuffle : List Nat → List Nat)
    (tb : String) (w : World) (call : Option ApiCall) : ApiOutcome × World :=
  match call with
  | none => (⟨errorResponse tb, true⟩, w)
  | some c =>
    match dispatch cat settings worker_result renderMarkdown registerBirdseye
        clean_program shuffle w c with
    | some (v, w2) => (⟨wrapResult v, false⟩, w2)
    | none => (⟨errorResponse tb, true⟩, w)

/-! ### Helper lemmas -/

theorem pyGet_nonneg {α : Type} (l : List α) (i : Int) (h : 0 ≤ i) :
    pyGet l i = l[i.toNat]? := by
  simp [pyGet, h]

theorem pyGet_neg {α : Type} (l : List α) (i : Int)
    (h1 : -(l.length : Int) ≤ i) (h2 : i < 0) :
    pyGet l i = l[((l.length : Int) + i).toNat]? := by
  have : ¬ (0 ≤ i) := by omega
  simp [pyGet, this, h1]

theorem pyGet_neg_isSome {α : Type} (l : List α) (i : Int)
    (h1 : -(l.length : Int) ≤ i) (h2 : i < 0) :
    (pyGet l i).isSome := by
  rw [pyGet_neg l i h1 h2]
  have hlt : ((l.length : Int) + i).toNat < l.length := by omega
  simp [List.getElem?_eq_getElem hlt]

theorem mem_page_slugs (cat : List Page) (page : Page) (h : page ∈ cat) :
    page.slug ∈ page_slugs_list cat :=
  List.mem_map_of_mem Page.slug h

/-- With pairwise distinct slugs, looking a member page's slug up in the
`pages` dictionary returns that page. -/
theorem lookupPage_of_mem (cat : List Page) (page : Page)
    (hnd : (page_slugs_list cat).Nodup) (h : page ∈ cat) :
    lookupPage cat page.slug = some page := by
  induction cat with
  | nil => cases h
  | cons q rest ih =>
    have hnd2 : q.slug ∉ page_slugs_list rest ∧ (page_slugs_list rest).Nodup := by
      simpa [page_slugs_list, List.nodup_cons] using hnd
    rcases List.mem_cons.1 h with rfl | hmem
    · simp [lookupPage, List.find?]
    · have hne : ¬ (q.slug = page.slug) := by
        intro heq
        exact hnd2.1 (heq ▸ mem_page_slugs rest page hmem)
      have := ih hnd2.2 hmem
      simpa [lookupPage, List.find?, hne] using this

/-- A slug drawn from `page_slugs_list` always resolves in the `pages`
dictionary, to a page carrying that slug. -/
theorem lookupPage_exists (cat : List Page) (slug : String)
    (h : slug ∈ page_slugs_list cat) :
    ∃ page, lookupPage cat slug = some page ∧ page.slug = slug := by
  induction cat with
  | nil => simp [page_slugs_list] at h
  | cons q rest ih =>
    by_cases hq : q.slug = slug
    · exact ⟨q, by simp [lookupPage, List.find?, hq], hq⟩
    · have h3 : slug = q.slug ∨ slug ∈ page_slugs_list rest := List.mem_cons.1 h
      have hmem : slug ∈ page_slugs_list rest := by
        rcases h3 with h3 | h3
        · exact absurd h3.symm hq
        · exact h3
      obtain ⟨page, hpage, hslug⟩ := ih hmem
      exact ⟨page, by simpa [lookupPage, List.find?, hq] using hpage, hslug⟩

theorem lookup_dictSet_self (m : List (String × String)) (k v : String) :
    (dictSet m k v).lookup k = some v := by
  induction m with
  | nil => simp [dictSet, List.lookup]
  | cons kv rest ih =>
    rcases kv with ⟨k0, v0⟩
    by_cases hk : k0 = k
    · subst hk
      simp [dictSet, List.lookup]
    · have hbeq : (k == k0) = false := by
        simp [Ne.symm hk]
      simp [dictSet, hk, List.lookup, hbeq, ih]

theorem lookup_dictSet_other (m : List (String × String)) (k v k2 : String)
    (hne : k2 ≠ k) : (dictSet m k v).lookup k2 = m.lookup k2 := by
  have hbne : (k2 == k) = false := by simp [hne]
  induction m with
  | nil => simp [dictSet, List.lookup, hbne]
  | cons kv rest ih =>
    rcases kv with ⟨k0, v0⟩
    by_cases hk : k0 = k
    · subst hk
      simp [dictSet, List.lookup, hbne]
    · by_cases hk2 : k2 = k0
      · subst hk2
        simp [dictSet, hk, List.lookup]
      · have hb2 : (k2 == k0) = false := by simp [hk2]
        simp [dictSet, hk, List.lookup, hb2, ih]

/-! ### Claim C5 -/

/-- Claim C5: for every program text, concatenating the token sequence
produced by the puzzle generator's tokenisation step, in original order,
reproduces the input program exactly, whitespace tokens included. -/
theorem solutionPuzzle_tokens_roundtrip
    (shuffle : List Nat → List Nat) (program : String) :
    concatTokens (solutionPuzzle shuffle program).tokens = program := by
  simpa [solutionPuzzle] using tokenizeProgram_concat program

/-! ### Claim C4 -/

theorem maskedIndicesOf_nodup (tokens : List String) :
    (maskedIndicesOf tokens).Nodup :=
  (List.nodup_range tokens.length).filter _

theorem mem_maskedIndicesOf (tokens : List String) (i : Nat) :
    i ∈ maskedIndicesOf tokens ↔
      i < tokens.length ∧ pyIsSpace (tokens.getD i "") = false := by
  simp [maskedIndicesOf, List.mem_filter, List.mem_range]

theorem maskOf_getD (tokens : List String) (i : Nat) (h : i < tokens.length) :
    (maskOf tokens).getD i false = !pyIsSpace (tokens.getD i "") := by
  have h2 : i < (maskOf tokens).length := by simpa [maskOf] using h
  simp [maskOf, List.getD, List.get?_eq_getElem?,
    List.getElem?_eq_getElem h, List.getElem?_eq_getElem h2]

/-- Core of claim C4, at the level of the puzzle built from a resolved
program: the mask, the masked indices and the whitespace test agree
pointwise, the masked indices are a duplicate-free permutation of exactly
the non-whitespace token indices, and the empty program yields no masked
indices. -/
theorem solutionPuzzle_mask_spec (shuffle : List Nat → List Nat)
    (hshuf : ∀ l : List Nat, (shuffle l).Perm l) (program : String) :
    (solutionPuzzle shuffle program).mask.length =
        (solutionPuzzle shuffle program).tokens.length ∧
    (∀ i, i < (solutionPuzzle shuffle program).tokens.length →
      (((solutionPuzzle shuffle program).mask.getD i false = true ↔
          i ∈ (solutionPuzzle shuffle program).maskedIndices) ∧
        (i ∈ (solutionPuzzle shuffle program).maskedIndices ↔
          pyIsSpace ((solutionPuzzle shuffle program).tokens.getD i "") = false))) ∧
    (∀ i, i ∈ (solutionPuzzle shuffle program).maskedIndices →
      i < (solutionPuzzle shuffle program).tokens.length) ∧
    (solutionPuzzle shuffle program).maskedIndices.Nodup ∧
    (solutionPuzzle shuffle program).maskedIndices.Perm
      (maskedIndicesOf (solutionPuzzle shuffle program).tokens) := by
  have htokens : (solutionPuzzle shuffle program).tokens =
      tokenizeProgram program := rfl
  have hmask : (solutionPuzzle shuffle program).mask =
      maskOf (tokenizeProgram program) := rfl
  have hmi : (solutionPuzzle shuffle program).maskedIndices =
      shuffle (maskedIndicesOf (tokenizeProgram program)) := rfl
  rw [htokens, hmask, hmi]
  have hperm : (shuffle (maskedIndicesOf (tokenizeProgram program))).Perm
      (maskedIndicesOf (tokenizeProgram program)) :=
    hshuf (maskedIndicesOf (tokenizeProgram program))
  refine ⟨by simp [maskOf], ?_, ?_, ?_, hperm⟩
  · intro i hi
    constructor
    · rw [maskOf_getD (tokenizeProgram program) i hi,
        hperm.mem_iff, mem_maskedIndicesOf]
      cases hp : pyIsSpace ((tokenizeProgram program).getD i "") <;>
        simp [hi]
    · rw [hperm.mem_iff, mem_maskedIndicesOf]
      constructor
      · intro h
        exact h.2
      · intro h
        exact ⟨hi, h⟩
  · intro i hi
    exact ((mem_maskedIndicesOf (tokenizeProgram program) i).1
      (hperm.mem_iff.1 hi)).1
  · exact hperm.nodup_iff.2 (maskedIndicesOf_nodup (tokenizeProgram program))

/-- `get_solution` returns the puzzle of some resolved program. -/
theorem get_solution_eq_solutionPuzzle
    (cat : List Page) (clean_program : String → String)
    (shuffle : List Nat → List Nat) (page_index step_index : Int)
    (puzzle : PuzzleSpec)
    (hres : get_solution cat clean_program shuffle page_index step_index =
      some puzzle) :
    ∃ program, puzzle = solutionPuzzle shuffle program := by
  unfold get_solution at hres
  split at hres
  · exact Option.noConfusion hres
  split at hres
  · exact Option.noConfusion hres
  split at hres
  · exact Option.noConfusion hres
  split at hres
  · exact Option.noConfusion hres
  exact ⟨_, (Option.some.inj hres).symm⟩

/-- Claim C4: the `PuzzleSpec` returned by `get_solution` satisfies
`mask[i] = true` iff `i ∈ maskedIndices` iff `tokens[i]` is not pure
whitespace, for every index; `maskedIndices` is a permutation — no
duplicates, no omissions — of exactly the non-whitespace token indices;
and the empty program produces empty `maskedIndices`. -/
theorem get_solution_mask_invariants
    {cat : List Page} {clean_program : String → String}
    {shuffle : List Nat → List Nat} {page_index step_index : Int}
    {puzzle : PuzzleSpec}
    (hshuf : ∀ l : List Nat, (shuffle l).Perm l)
    (hres : get_solution cat clean_program shuffle page_index step_index =
      some puzzle) :
    puzzle.mask.length = puzzle.tokens.length ∧
    (∀ i, i < puzzle.tokens.length →
      ((puzzle.mask.getD i false = true ↔ i ∈ puzzle.maskedIndices) ∧
        (i ∈ puzzle.maskedIndices ↔
          pyIsSpace (puzzle.tokens.getD i "") = false))) ∧
    (∀ i, i ∈ puzzle.maskedIndices → i < puzzle.tokens.length) ∧
    puzzle.maskedIndices.Nodup ∧
    puzzle.maskedIndices.Perm (maskedIndicesOf puzzle.tokens) ∧
    (solutionPuzzle shuffle "").maskedIndices = [] := by
  obtain ⟨program, rfl⟩ := get_solution_eq_solutionPuzzle _ _ _ _ _ _ hres
  obtain ⟨a, b, c, d, e⟩ := solutionPuzzle_mask_spec shuffle hshuf program
  refine ⟨a, b, c, d, e, ?_⟩
  have hempty : maskedIndicesOf (tokenizeProgram "") = [] := rfl
  have := hshuf (maskedIndicesOf (tokenizeProgram ""))
  rw [hempty] at this
  simpa [solutionPuzzle, hempty] using this.eq_nil

/-! ### Progress state machine lemmas -/

/-- The user record `move_step` leaves behind, given the resolved page:
updated when the target is in range, untouched otherwise. -/
def moveStepUser (page : Page) (st : UserState) (step_index : Int) :
    UserState :=
  if 0 ≤ step_index ∧ step_index < (page.step_names.length : Int) then
    st.withProgress
      (dictSet st.pages_progress page.slug
        (page.step_names.getD step_index.toNat ""))
  else st

theorem move_step_eq (cat : List Page) (st : UserState)
    (page_index step_index : Int) (slug : String) (page : Page)
    (hpi : pyGet (page_slugs_list cat) page_index = some slug)
    (hlook : lookupPage cat slug = some page) :
    move_step cat st page_index step_index =
      some (current_state cat (moveStepUser page st step_index),
        moveStepUser page st step_index) := by
  have hslug : page.slug = slug := by
    simpa using List.find?_some hlook
  subst hslug
  unfold move_step
  simp only [hpi]
  simp only [hlook]
  unfold moveStepUser
  by_cases h : 0 ≤ step_index ∧ step_index < (page.step_names.length : Int) <;>
    simp [h]

theorem moveStepUser_lookup_self (page : Page) (st : UserState)
    (step_index : Int) (h0 : 0 ≤ step_index)
    (hlt : step_index < (page.step_names.length : Int)) :
    (moveStepUser page st step_index).pages_progress.lookup page.slug =
      some (page.step_names.getD step_index.toNat "") := by
  unfold moveStepUser
  rw [if_pos ⟨h0, hlt⟩]
  exact lookup_dictSet_self _ _ _

theorem current_state_getElem? (cat : List Page) (st : UserState) (n : Nat)
    (page : Page) (hn : cat[n]? = some page) :
    (current_state cat st)[n]? =
      some (stepIndexOf page (st.pages_progress.lookup page.slug)) := by
  unfold current_state
  rw [List.getElem?_map, hn]
  rfl

theorem mem_of_getElem? {α : Type} {l : List α} {n : Nat} {a : α}
    (h : l[n]? = some a) : a ∈ l := by
  have hlt : n < l.length := by
    by_contra hge
    rw [List.getElem?_eq_none (by omega)] at h
    exact Option.noConfusion h
  rw [List.getElem?_eq_getElem hlt] at h
  cases h
  exact List.getElem_mem hlt

/-! ### Claim C1 -/

/-- Claim C1: for a page index resolving to a page and any integer target
step index, `move_step` with an in-range target records exactly
`step_names[target]` for that page and persists it, while an out-of-range
target leaves the learner's record completely unchanged; both cases return
the post-operation `current_state` snapshot, and the recorded step is
always one of the page's step names. -/
theorem move_step_spec (cat : List Page) (st : UserState)
    (page_index step_index : Int) (page : Page)
    (hnd : (page_slugs_list cat).Nodup)
    (hmem : page ∈ cat)
    (hpi : pyGet (page_slugs_list cat) page_index = some page.slug) :
    ((0 ≤ step_index ∧ step_index < (page.step_names.length : Int)) →
      ∃ name st2, page.step_names[step_index.toNat]? = some name ∧
        st2 = st.withProgress (dictSet st.pages_progress page.slug name) ∧
        move_step cat st page_index step_index =
          some (current_state cat st2, st2) ∧
        st2.pages_progress.lookup page.slug = some name ∧
        name ∈ page.step_names) ∧
    (¬ (0 ≤ step_index ∧ step_index < (page.step_names.length : Int)) →
      move_step cat st page_index step_index =
        some (current_state cat st, st)) := by
  have hlook : lookupPage cat page.slug = some page :=
    lookupPage_of_mem cat page hnd hmem
  have heq := move_step_eq cat st page_index step_index page.slug page hpi hlook
  constructor
  · rintro ⟨h0, hlt⟩
    have hx : step_index.toNat < page.step_names.length := by omega
    refine ⟨page.step_names.getD step_index.toNat "",
      moveStepUser page st step_index, ?_, ?_, ?_, ?_, ?_⟩
    · rw [List.getElem?_eq_getElem hx, List.getD_eq_getElem _ _ hx]
    · unfold moveStepUser
      rw [if_pos ⟨h0, hlt⟩]
    · exact heq
    · exact moveStepUser_lookup_self page st step_index h0 hlt
    · rw [List.getD_eq_getElem _ _ hx]
      exact List.getElem_mem hx
  · intro hrange
    have : moveStepUser page st step_index = st := by
      unfold moveStepUser
      rw [if_neg hrange]
    rw [heq, this]

/-! ### Claim C6 -/

/-- Claim C6: `current_state` is a pure function of the progress record and
the catalog; it returns one entry per page in catalog order, for a page
with a recorded step the zero-based index of that step in the page's step
list, and for a page with no recorded entry the index 0. -/
theorem current_state_spec (cat : List Page) (st : UserState) (n : Nat)
    (page : Page) (hn : cat[n]? = some page) :
    (current_state cat st).length = cat.length ∧
    (∀ name j, st.pages_progress.lookup page.slug = some name →
      page.step_names.Nodup → page.step_names[j]? = some name →
      (current_state cat st)[n]? = some j) ∧
    (st.pages_progress.lookup page.slug = none →
      (current_state cat st)[n]? = some 0) := by
  refine ⟨by simp [current_state], ?_, ?_⟩
  · intro name j hlookup hnodup hj
    rw [current_state_getElem? cat st n page hn, hlookup]
    have hjlt : j < page.step_names.length := by
      by_contra hge
      rw [List.getElem?_eq_none (by omega)] at hj
      exact Option.noConfusion hj
    rw [List.getElem?_eq_getElem hjlt] at hj
    have : page.step_names.indexOf name = j := by
      rw [← Option.some.inj hj]
      exact List.indexOf_getElem hnodup j hjlt
    simp [stepIndexOf, this]
  · intro hlookup
    rw [current_state_getElem? cat st n page hn, hlookup]
    rfl

/-! ### Concrete fixtures for witnesses and counterexamples -/

/-- A concrete informational step. -/
def stepWelcome : StepDef := ⟨false, "", "x = 1"⟩

/-- A concrete exercise step. -/
def stepHello : StepDef := ⟨true, "print(1)\n", ""⟩

/-- A concrete catalog page with two steps. -/
def pageIntro : Page :=
  ⟨"intro", "Intro", 0, ["welcome", "hello_world"],
    [("welcome", stepWelcome), ("hello_world", stepHello)]⟩

/-- A one-page concrete catalog. -/
def catalog1 : List Page := [pageIntro]

/-- A learner with no recorded progress. -/
def user0 : UserState := ⟨1, "intro", [], false⟩

/-- A learner who has completed the last step of `pageIntro`. -/
def userAtEnd : UserState := ⟨1, "intro", [("intro", "hello_world")], false⟩

/-- A learner whose recorded step on `pageIntro` is the first one. -/
def userAtStart : UserState := ⟨1, "intro", [("intro", "welcome")], false⟩

/-! ### Claim C8 -/

/-- Claim C8 counterexample: the recorded step index can decrease.  With
the learner's recorded index at 1 on the only page, the exposed operation
`move_step(0, 0)` stores step 0 and the snapshot drops from `[1]` to
`[0]` — a reachable backward transition of the per-page pointer. -/
theorem move_step_can_decrease :
    current_state catalog1 userAtEnd = [1] ∧
    move_step catalog1 userAtEnd 0 0 = some ([0], userAtStart) ∧
    current_state catalog1 userAtStart = [0] := by
  refine ⟨by decide, by decide, by decide⟩

/-- Claim C8 (amended): the per-page pointer starts at index 0 for an
untouched page and `move_step` at the last index is a no-op rather than an
error, but transitions are last-write-wins, not monotone: an in-range
`move_step` records exactly its target index — even one smaller than the
current value — and only an out-of-range target leaves progress
unchanged. -/
theorem move_step_last_write_wins (cat : List Page) (st : UserState)
    (page_index step_index : Int) (n : Nat) (page : Page)
    (hnd : (page_slugs_list cat).Nodup)
    (hn : cat[n]? = some page)
    (hpi : pyGet (page_slugs_list cat) page_index = some page.slug)
    (hnames : page.step_names.Nodup) :
    (st.pages_progress.lookup page.slug = none →
      (current_state cat st)[n]? = some 0) ∧
    ((0 ≤ step_index ∧ step_index < (page.step_names.length : Int)) →
      ∃ st2, move_step cat st page_index step_index =
          some (current_state cat st2, st2) ∧
        (current_state cat st2)[n]? = some step_index.toNat) ∧
    (¬ (0 ≤ step_index ∧ step_index < (page.step_names.length : Int)) →
      move_step cat st page_index step_index =
        some (current_state cat st, st)) := by
  have hmem : page ∈ cat := mem_of_getElem? hn
  have hlook : lookupPage cat page.slug = some page :=
    lookupPage_of_mem cat page hnd hmem
  have heq := move_step_eq cat st page_index step_index page.slug page hpi hlook
  refine ⟨?_, ?_, ?_⟩
  · intro hnone
    rw [current_state_getElem? cat st n page hn, hnone]
    rfl
  · rintro ⟨h0, hlt⟩
    have hx : step_index.toNat < page.step_names.length := by omega
    refine ⟨moveStepUser page st step_index, heq, ?_⟩
    rw [current_state_getElem? cat _ n page hn,
      moveStepUser_lookup_self page st step_index h0 hlt]
    have hname : page.step_names.getD step_index.toNat "" =
        page.step_names.get ⟨step_index.toNat, hx⟩ := by
      rw [List.getD_eq_getElem _ _ hx]
      rfl
    simp only [stepIndexOf, hname]
    rw [show page.step_names.get ⟨step_index.toNat, hx⟩ =
        page.step_names[step_index.toNat] from rfl]
    rw [List.indexOf_getElem hnames step_index.toNat hx]
  · intro hrange
    have : moveStepUser page st step_index = st := by
      unfold moveStepUser
      rw [if_neg hrange]
    rw [heq, this]

/-! ### Claim C2 -/

/-- Claim C2: when the execution result carries a non-empty `error`,
`run_code` returns the error-only response — serialised with `error` as
its single field — does not advance progress, and leaves the learner's
record entirely unchanged. -/
theorem run_code_error_short_circuit {β : Type} (cat : List Page)
    (settings : Settings) (worker_result : CodeEntry → ExecResult β)
    (renderMarkdown : String → String) (registerBirdseye : β → String)
    (w : World) (code source : String) (page_index step_index : Int)
    (slug : String) (page : Page) (step_name : String)
    (entry : CodeEntry) (result : ExecResult β)
    (hpi : pyGet (page_slugs_list cat) page_index = some slug)
    (hlook : lookupPage cat slug = some page)
    (hsi : pyGet page.step_names step_index = some step_name)
    (hentry : entry = ⟨code, source, slug, step_name, w.user.user_id, none⟩)
    (hresult : result = worker_result entry)
    (herr : result.error ≠ "") :
    ∃ w2, run_code cat settings worker_result renderMarkdown registerBirdseye
        w code source page_index step_index =
          some (.failure result.error, w2) ∧
      w2.user = w.user ∧
      runCodeResponseJson (.failure result.error) =
        .dict [("error", .str result.error)] := by
  subst hentry
  subst hresult
  unfold run_code
  simp only [hpi]
  simp only [hlook]
  simp only [hsi]
  rw [if_neg herr]
  exact ⟨_, rfl, rfl, rfl⟩

/-! ### Claim C3 -/

/-- Claim C3: with no executor error and `passed = true`, `run_code`
advances progress by calling `move_step(page_index, step_index + 1)`: the
final learner record equals exactly the one that call produces; with
`passed = false` the record is left unchanged. -/
theorem run_code_passed_advances {β : Type} (cat : List Page)
    (settings : Settings) (worker_result : CodeEntry → ExecResult β)
    (renderMarkdown : String → String) (registerBirdseye : β → String)
    (w : World) (code source : String) (page_index step_index : Int)
    (slug : String) (page : Page) (step_name : String)
    (entry : CodeEntry) (result : ExecResult β)
    (hpi : pyGet (page_slugs_list cat) page_index = some slug)
    (hlook : lookupPage cat slug = some page)
    (hsi : pyGet page.step_names step_index = some step_name)
    (hentry : entry = ⟨code, source, slug, step_name, w.user.user_id, none⟩)
    (hresult : result = worker_result entry)
    (herr : result.error = "") :
    (result.passed = true →
      ∀ snap user2,
        move_step cat w.user page_index (step_index + 1) =
          some (snap, user2) →
        ∃ resp entries2,
          run_code cat settings worker_result renderMarkdown registerBirdseye
              w code source page_index step_index =
            some (resp, ⟨user2, entries2⟩)) ∧
    (result.passed = false →
      ∃ resp w2,
        run_code cat settings worker_result renderMarkdown registerBirdseye
            w code source page_index step_index = some (resp, w2) ∧
        w2.user = w.user) := by
  subst hentry
  subst hresult
  unfold run_code
  simp only [hpi]
  simp only [hlook]
  simp only [hsi]
  rw [if_pos herr]
  constructor
  · intro hpassed snap user2 hmove
    rw [hpassed]
    rw [if_pos rfl]
    rw [hmove]
    exact ⟨_, _, rfl⟩
  · intro hpassed
    rw [hpassed]
    rw [if_neg Bool.false_ne_true]
    exact ⟨_, _, rfl, rfl⟩

/-! ### Claim C7 -/

/-- Claim C7: with no executor error, `run_code` appends exactly one
synthetic prompt fragment `{text: ">>> ", color: "white"}` at the end of
the returned output parts when `awaiting_input` is false, and returns the
executor's output parts untouched when `awaiting_input` is true. -/
theorem run_code_prompt_fragment {β : Type} (cat : List Page)
    (settings : Settings) (worker_result : CodeEntry → ExecResult β)
    (renderMarkdown : String → String) (registerBirdseye : β → String)
    (w : World) (code source : String) (page_index step_index : Int)
    (slug : String) (page : Page) (step_name : String)
    (entry : CodeEntry) (result : ExecResult β)
    (hpi : pyGet (page_slugs_list cat) page_index = some slug)
    (hlook : lookupPage cat slug = some page)
    (hsi : pyGet page.step_names step_index = some step_name)
    (hentry : entry = ⟨code, source, slug, step_name, w.user.user_id, none⟩)
    (hresult : result = worker_result entry)
    (herr : result.error = "") :
    (result.awaiting_input = false →
      ∃ msg stt url w2,
        run_code cat settings worker_result renderMarkdown registerBirdseye
            w code source page_index step_index =
          some (.success (result.output_parts ++ [promptFragment])
            msg stt url result.passed, w2)) ∧
    (result.awaiting_input = true →
      ∃ msg stt url w2,
        run_code cat settings worker_result renderMarkdown registerBirdseye
            w code source page_index step_index =
          some (.success result.output_parts msg stt url result.passed, w2)) := by
  subst hentry
  subst hresult
  unfold run_code
  simp only [hpi]
  simp only [hlook]
  simp only [hsi]
  rw [if_pos herr]
  have hmove := fun st => move_step_eq cat st page_index (step_index + 1)
    slug page hpi hlook
  constructor
  · intro hawait
    cases hp : (worker_result
        ⟨code, source, slug, step_name, w.user.user_id, none⟩).passed <;>
      simp only [hp, if_true, if_false, hmove, hawait] <;>
      exact ⟨_, _, _, _, rfl⟩
  · intro hawait
    cases hp : (worker_result
        ⟨code, source, slug, step_name, w.user.user_id, none⟩).passed <;>
      simp only [hp, if_true, if_false, hmove, hawait] <;>
      exact ⟨_, _, _, _, rfl⟩

/-! ### Claim C9 -/

theorem wrapResult_isDict (v : JsonVal) : (wrapResult v).isDict = true := by
  cases v <;> rfl

/-- Claim C9: every invocation through the dispatch boundary returns a
structured dictionary: when the request fails to decode or the handler
raises anywhere (invalid page or step index, missing argument — any
modelled exception), the fault is caught at the boundary, reported to the
error tracker, and converted to `{error: {traceback}}` with the stored
state untouched; a successful handler value is serialised (wrapped into
`{result: ...}` when not already a dictionary) and nothing is reported.
No raw fault ever propagates to the transport layer. -/
theorem api_view_catches_all {β : Type} (cat : List Page)
    (settings : Settings) (worker_result : CodeEntry → ExecResult β)
    (renderMarkdown : String → String) (registerBirdseye : β → String)
    (clean_program : String → String) (shuffle : List Nat → List Nat)
    (tb : String) (w : World) (call : Option ApiCall) :
    ((api_view cat settings worker_result renderMarkdown registerBirdseye
        clean_program shuffle tb w call).1.response.isDict = true) ∧
    (call = none →
      api_view cat settings worker_result renderMarkdown registerBirdseye
          clean_program shuffle tb w call = (⟨errorResponse tb, true⟩, w)) ∧
    (∀ c, call = some c →
      dispatch cat settings worker_result renderMarkdown registerBirdseye
          clean_program shuffle w c = none →
      api_view cat settings worker_result renderMarkdown registerBirdseye
          clean_program shuffle tb w call = (⟨errorResponse tb, true⟩, w)) ∧
    (∀ c v w2, call = some c →
      dispatch cat settings worker_result renderMarkdown registerBirdseye
          clean_program shuffle w c = some (v, w2) →
      api_view cat settings worker_result renderMarkdown registerBirdseye
          clean_program shuffle tb w call = (⟨wrapResult v, false⟩, w2)) := by
  rcases call with _ | c
  · refine ⟨rfl, fun _ => rfl, ?_, ?_⟩
    · intro c hc
      exact Option.noConfusion hc
    · intro c v w2 hc
      exact Option.noConfusion hc
  · cases hd : dispatch cat settings worker_result renderMarkdown
        registerBirdseye clean_program shuffle w c with
    | none =>
      refine ⟨?_, ?_, ?_, ?_⟩
      · show (api_view cat settings worker_result renderMarkdown
            registerBirdseye clean_program shuffle tb w
            (some c)).1.response.isDict = true
        unfold api_view
        simp only [hd]
        rfl
      · intro hc
        exact Option.noConfusion hc
      · intro c2 hc2 _
        cases hc2
        unfold api_view
        simp only [hd]
      · intro c2 v w2 hc2 hd2
        cases hc2
        rw [hd] at hd2
        exact Option.noConfusion hd2
    | some vw =>
      rcases vw with ⟨v, w2⟩
      refine ⟨?_, ?_, ?_, ?_⟩
      · show (api_view cat settings worker_result renderMarkdown
            registerBirdseye clean_program shuffle tb w
            (some c)).1.response.isDict = true
        unfold api_view
        simp only [hd]
        exact wrapResult_isDict v
      · intro hc
        exact Option.noConfusion hc
      · intro c2 hc2 hd2
        cases hc2
        rw [hd] at hd2
        exact Option.noConfusion hd2
      · intro c2 v2 w3 hc2 hd2
        cases hc2
        rw [hd] at hd2
        rcases Prod.mk.injEq .. ▸ Option.some.inj hd2 with ⟨hv, hw⟩
        subst hv
        subst hw
        unfold api_view
        simp only [hd]

/-! ### Claim C10 -/

theorem pyGet_neg_eq {α : Type} (l : List α) (i : Int)
    (h1 : -(l.length : Int) ≤ i) (h2 : i < 0) :
    pyGet l i = pyGet l ((l.length : Int) + i) := by
  rw [pyGet_neg l i h1 h2, pyGet_nonneg l _ (by omega)]

theorem pyGet_mem {α : Type} {l : List α} {i : Int} {a : α}
    (h : pyGet l i = some a) : a ∈ l := by
  unfold pyGet at h
  split at h
  · exact mem_of_getElem? h
  · split at h
    · exact mem_of_getElem? h
    · exact Option.noConfusion h

theorem move_step_page_congr (cat : List Page) (pi1 pi2 : Int)
    (hpi : pyGet (page_slugs_list cat) pi1 = pyGet (page_slugs_list cat) pi2)
    (st : UserState) (step_index : Int) :
    move_step cat st pi1 step_index = move_step cat st pi2 step_index := by
  unfold move_step
  rw [hpi]

theorem set_page_congr (cat : List Page) (pi1 pi2 : Int)
    (hpi : pyGet (page_slugs_list cat) pi1 = pyGet (page_slugs_list cat) pi2)
    (st : UserState) :
    set_page cat st pi1 = set_page cat st pi2 := by
  unfold set_page
  rw [hpi]

theorem get_solution_page_congr (cat : List Page)
    (clean_program : String → String) (shuffle : List Nat → List Nat)
    (pi1 pi2 step_index : Int)
    (hpi : pyGet (page_slugs_list cat) pi1 = pyGet (page_slugs_list cat) pi2) :
    get_solution cat clean_program shuffle pi1 step_index =
      get_solution cat clean_program shuffle pi2 step_index := by
  unfold get_solution
  rw [hpi]

theorem run_code_page_congr {β : Type} (cat : List Page)
    (settings : Settings) (worker_result : CodeEntry → ExecResult β)
    (renderMarkdown : String → String) (registerBirdseye : β → String)
    (pi1 pi2 : Int)
    (hpi : pyGet (page_slugs_list cat) pi1 = pyGet (page_slugs_list cat) pi2)
    (w : World) (code source : String) (step_index : Int) :
    run_code cat settings worker_result renderMarkdown registerBirdseye
        w code source pi1 step_index =
      run_code cat settings worker_result renderMarkdown registerBirdseye
        w code source pi2 step_index := by
  unfold run_code
  simp only [hpi, move_step_page_congr cat pi1 pi2 hpi]

theorem move_step_isSome (cat : List Page) (st : UserState)
    (page_index step_index : Int)
    (h : (pyGet (page_slugs_list cat) page_index).isSome = true) :
    (move_step cat st page_index step_index).isSome = true := by
  obtain ⟨slug, hslug⟩ := Option.isSome_iff_exists.1 h
  obtain ⟨page, hlp, _⟩ := lookupPage_exists cat slug (pyGet_mem hslug)
  unfold move_step
  simp only [hslug]
  simp only [hlp]
  rfl

theorem run_code_isSome {β : Type} (cat : List Page) (settings : Settings)
    (worker_result : CodeEntry → ExecResult β)
    (renderMarkdown : String → String) (registerBirdseye : β → String)
    (w : World) (code source : String) (page_index step_index : Int)
    (slug : String) (page : Page) (step_name : String)
    (hpi : pyGet (page_slugs_list cat) page_index = some slug)
    (hlook : lookupPage cat slug = some page)
    (hsi : pyGet page.step_names step_index = some step_name) :
    (run_code cat settings worker_result renderMarkdown registerBirdseye
      w code source page_index step_index).isSome = true := by
  unfold run_code
  simp only [hpi]
  simp only [hlook]
  simp only [hsi]
  by_cases herr : (worker_result
      ⟨code, source, slug, step_name, w.user.user_id, none⟩).error = ""
  · rw [if_pos herr]
    cases hp : (worker_result
        ⟨code, source, slug, step_name, w.user.user_id, none⟩).passed
    · rw [if_neg Bool.false_ne_true]
      rfl
    · rw [if_pos rfl]
      rw [move_step_eq cat w.user page_index (step_index + 1) slug page
        hpi hlook]
      rfl
  · rw [if_neg herr]
    rfl

theorem get_solution_isSome (cat : List Page)
    (clean_program : String → String) (shuffle : List Nat → List Nat)
    (page_index step_index : Int)
    (slug : String) (page : Page) (step_name : String) (sd : StepDef)
    (hpi : pyGet (page_slugs_list cat) page_index = some slug)
    (hlook : lookupPage cat slug = some page)
    (hsi : pyGet page.step_names step_index = some step_name)
    (hsd : page.step_defs.lookup step_name = some sd) :
    (get_solution cat clean_program shuffle page_index step_index).isSome =
      true := by
  unfold get_solution
  simp only [hpi]
  simp only [hlook]
  simp only [hsi]
  simp only [hsd]
  rfl

/-- Claim C10: a negative page index in `[-len(catalog), 0)` does not make
`run_code`, `move_step`, `set_page` or `get_solution` fail: the shared page
resolution `page_slugs_list[page_index]` silently counts from the end of
the catalog, each operation behaves exactly as with the equivalent
from-the-end non-negative index, `move_step` and `set_page` succeed
outright, and `run_code`/`get_solution` succeed whenever their remaining
step lookups resolve; likewise the step resolution
`step_names[step_index]` of `run_code` and `get_solution` resolves a
negative in-range step index by counting from the end of the step list. -/
theorem negative_index_resolution {β : Type} (cat : List Page)
    (settings : Settings) (worker_result : CodeEntry → ExecResult β)
    (renderMarkdown : String → String) (registerBirdseye : β → String)
    (clean_program : String → String) (shuffle : List Nat → List Nat)
    (st : UserState) (w : World) (code source : String)
    (page_index step_index : Int)
    (hneg : -(cat.length : Int) ≤ page_index) (hlt : page_index < 0) :
    (pyGet (page_slugs_list cat) page_index =
        (page_slugs_list cat)[((cat.length : Int) + page_index).toNat]? ∧
      (pyGet (page_slugs_list cat) page_index).isSome = true) ∧
    (move_step cat st page_index step_index =
        move_step cat st ((cat.length : Int) + page_index) step_index ∧
      (move_step cat st page_index step_index).isSome = true) ∧
    (set_page cat st page_index =
        set_page cat st ((cat.length : Int) + page_index) ∧
      (set_page cat st page_index).isSome = true) ∧
    (run_code cat settings worker_result renderMarkdown registerBirdseye
        w code source page_index step_index =
      run_code cat settings worker_result renderMarkdown registerBirdseye
        w code source ((cat.length : Int) + page_index) step_index) ∧
    (get_solution cat clean_program shuffle page_index step_index =
      get_solution cat clean_program shuffle
        ((cat.length : Int) + page_index) step_index) ∧
    (∀ steps : List String, -(steps.length : Int) ≤ step_index →
      step_index < 0 →
      pyGet steps step_index =
          steps[((steps.length : Int) + step_index).toNat]? ∧
        (pyGet steps step_index).isSome = true) ∧
    (∀ slug page step_name,
      pyGet (page_slugs_list cat) page_index = some slug →
      lookupPage cat slug = some page →
      pyGet page.step_names step_index = some step_name →
      (run_code cat settings worker_result renderMarkdown registerBirdseye
        w code source page_index step_index).isSome = true) ∧
    (∀ slug page step_name sd,
      pyGet (page_slugs_list cat) page_index = some slug →
      lookupPage cat slug = some page →
      pyGet page.step_names step_index = some step_name →
      page.step_defs.lookup step_name = some sd →
      (get_solution cat clean_program shuffle
        page_index step_index).isSome = true) := by
  have hlen : (page_slugs_list cat).length = cat.length := by
    simp [page_slugs_list]
  have hneg2 : -((page_slugs_list cat).length : Int) ≤ page_index := by
    rw [hlen]
    exact hneg
  have hpieq : pyGet (page_slugs_list cat) page_index =
      pyGet (page_slugs_list cat) ((cat.length : Int) + page_index) := by
    have := pyGet_neg_eq (page_slugs_list cat) page_index hneg2 hlt
    rw [hlen] at this
    exact this
  have hsome : (pyGet (page_slugs_list cat) page_index).isSome = true :=
    pyGet_neg_isSome (page_slugs_list cat) page_index hneg2 hlt
  refine ⟨⟨?_, hsome⟩, ⟨?_, ?_⟩, ⟨?_, ?_⟩, ?_, ?_, ?_, ?_, ?_⟩
  · have := pyGet_neg (page_slugs_list cat) page_index hneg2 hlt
    rw [hlen] at this
    exact this
  · exact move_step_page_congr cat page_index _ hpieq st step_index
  · exact move_step_isSome cat st page_index step_index hsome
  · exact set_page_congr cat page_index _ hpieq st
  · obtain ⟨slug, hslug⟩ := Option.isSome_iff_exists.1 hsome
    unfold set_page
    rw [hslug]
    rfl
  · exact run_code_page_congr cat settings worker_result renderMarkdown
      registerBirdseye page_index _ hpieq w code source step_index
  · exact get_solution_page_congr cat clean_program shuffle page_index _
      step_index hpieq
  · intro steps h1 h2
    exact ⟨pyGet_neg steps step_index h1 h2,
      pyGet_neg_isSome steps step_index h1 h2⟩
  · intro slug page step_name h1 h2 h3
    exact run_code_isSome cat settings worker_result renderMarkdown
      registerBirdseye w code source page_index step_index slug page
      step_name h1 h2 h3
  · intro slug page step_name sd h1 h2 h3 h4
    exact get_solution_isSome cat clean_program shuffle page_index
      step_index slug page step_name sd h1 h2 h3 h4

/-! ### Witnesses -/

/-- An execution result with a non-empty error. -/
def execErr : ExecResult Unit :=
  ⟨"boom", [], "ZeroDivisionError: division by zero", false, false, "", none⟩

/-- A passing execution result, not awaiting input. -/
def execPass : ExecResult Unit :=
  ⟨"hi\n", [⟨"hi\n", "white"⟩], "", true, false, "well done", none⟩

/-- An execution result awaiting further input. -/
def execAwait : ExecResult Unit :=
  ⟨"", [⟨"? ", "white"⟩], "", false, true, "", none⟩

/-- A stub executor returning a fixed result. -/
def workerOf (r : ExecResult Unit) : CodeEntry → ExecResult Unit :=
  fun _ => r

/-- A world holding the untouched learner and no audit entries. -/
def world0 : World := ⟨user0, []⟩

theorem move_step_spec_witness :
    ((page_slugs_list catalog1).Nodup ∧ pageIntro ∈ catalog1 ∧
      pyGet (page_slugs_list catalog1) 0 = some pageIntro.slug) ∧
    (((0 ≤ (1 : Int) ∧ (1 : Int) < (pageIntro.step_names.length : Int)) →
      ∃ name st2, pageIntro.step_names[(1 : Int).toNat]? = some name ∧
        st2 = user0.withProgress
          (dictSet user0.pages_progress pageIntro.slug name) ∧
        move_step catalog1 user0 0 1 =
          some (current_state catalog1 st2, st2) ∧
        st2.pages_progress.lookup pageIntro.slug = some name ∧
        name ∈ pageIntro.step_names) ∧
    (¬ (0 ≤ (1 : Int) ∧ (1 : Int) < (pageIntro.step_names.length : Int)) →
      move_step catalog1 user0 0 1 =
        some (current_state catalog1 user0, user0))) :=
  ⟨⟨by decide, by decide, by decide⟩,
    move_step_spec catalog1 user0 0 1 pageIntro (by decide) (by decide)
      (by decide)⟩

theorem run_code_error_short_circuit_witness :
    (pyGet (page_slugs_list catalog1) 0 = some "intro" ∧
      lookupPage catalog1 "intro" = some pageIntro ∧
      pyGet pageIntro.step_names 0 = some "welcome" ∧
      execErr.error ≠ "") ∧
    (∃ w2, run_code catalog1 ⟨true⟩ (workerOf execErr) id (fun _ => "")
        world0 "1/0" "editor" 0 0 = some (.failure execErr.error, w2) ∧
      w2.user = world0.user ∧
      runCodeResponseJson (.failure execErr.error) =
        .dict [("error", .str execErr.error)]) :=
  ⟨⟨by decide, by decide, by decide, by decide⟩,
    run_code_error_short_circuit catalog1 ⟨true⟩ (workerOf execErr) id
      (fun _ => "") world0 "1/0" "editor" 0 0 "intro" pageIntro "welcome"
      ⟨"1/0", "editor", "intro", "welcome", 1, none⟩ execErr
      (by decide) (by decide) (by decide) rfl rfl (by decide)⟩

theorem run_code_passed_advances_witness :
    (execPass.error = "" ∧ execPass.passed = true) ∧
    ((execPass.passed = true →
      ∀ snap user2, move_step catalog1 world0.user 0 (0 + 1) =
          some (snap, user2) →
        ∃ resp entries2, run_code catalog1 ⟨false⟩ (workerOf execPass) id
            (fun _ => "") world0 "print(1)" "editor" 0 0 =
          some (resp, ⟨user2, entries2⟩)) ∧
    (execPass.passed = false →
      ∃ resp w2, run_code catalog1 ⟨false⟩ (workerOf execPass) id
          (fun _ => "") world0 "print(1)" "editor" 0 0 =
            some (resp, w2) ∧
        w2.user = world0.user)) ∧
    run_code catalog1 ⟨false⟩ (workerOf execPass) id (fun _ => "")
        world0 "print(1)" "editor" 0 0 =
      some (.success [⟨"hi\n", "white"⟩, promptFragment] "well done" [1]
        none true, ⟨userAtEnd, []⟩) :=
  ⟨⟨rfl, rfl⟩,
    run_code_passed_advances catalog1 ⟨false⟩ (workerOf execPass) id
      (fun _ => "") world0 "print(1)" "editor" 0 0 "intro" pageIntro
      "welcome" ⟨"print(1)", "editor", "intro", "welcome", 1, none⟩ execPass
      (by decide) (by decide) (by decide) rfl rfl rfl,
    by decide⟩

theorem get_solution_mask_invariants_witness :
    ((∀ l : List Nat, (id l).Perm l) ∧
      get_solution catalog1 id id 0 0 = some (solutionPuzzle id "x = 1")) ∧
    ((solutionPuzzle id "x = 1").mask.length =
        (solutionPuzzle id "x = 1").tokens.length ∧
    (∀ i, i < (solutionPuzzle id "x = 1").tokens.length →
      (((solutionPuzzle id "x = 1").mask.getD i false = true ↔
          i ∈ (solutionPuzzle id "x = 1").maskedIndices) ∧
        (i ∈ (solutionPuzzle id "x = 1").maskedIndices ↔
          pyIsSpace ((solutionPuzzle id "x = 1").tokens.getD i "") =
            false))) ∧
    (∀ i, i ∈ (solutionPuzzle id "x = 1").maskedIndices →
      i < (solutionPuzzle id "x = 1").tokens.length) ∧
    (solutionPuzzle id "x = 1").maskedIndices.Nodup ∧
    (solutionPuzzle id "x = 1").maskedIndices.Perm
      (maskedIndicesOf (solutionPuzzle id "x = 1").tokens) ∧
    (solutionPuzzle (id : List Nat → List Nat) "").maskedIndices = []) :=
  ⟨⟨fun l => List.Perm.refl l, rfl⟩,
    @get_solution_mask_invariants catalog1 id id 0 0
      (solutionPuzzle id "x = 1") (fun l => List.Perm.refl l) rfl⟩

theorem current_state_spec_witness :
    (catalog1[0]? = some pageIntro) ∧
    ((current_state catalog1 userAtEnd).length = catalog1.length ∧
    (∀ name j, userAtEnd.pages_progress.lookup pageIntro.slug = some name →
      pageIntro.step_names.Nodup → pageIntro.step_names[j]? = some name →
      (current_state catalog1 userAtEnd)[0]? = some j) ∧
    (userAtEnd.pages_progress.lookup pageIntro.slug = none →
      (current_state catalog1 userAtEnd)[0]? = some 0)) :=
  ⟨rfl, current_state_spec catalog1 userAtEnd 0 pageIntro rfl⟩

theorem run_code_prompt_fragment_witness :
    (execPass.error = "" ∧ execPass.awaiting_input = false) ∧
    ((execPass.awaiting_input = false →
      ∃ msg stt url w2, run_code catalog1 ⟨false⟩ (workerOf execPass) id
          (fun _ => "") world0 "print(1)" "editor" 0 0 =
        some (.success (execPass.output_parts ++ [promptFragment])
          msg stt url execPass.passed, w2)) ∧
    (execPass.awaiting_input = true →
      ∃ msg stt url w2, run_code catalog1 ⟨false⟩ (workerOf execPass) id
          (fun _ => "") world0 "print(1)" "editor" 0 0 =
        some (.success execPass.output_parts msg stt url
          execPass.passed, w2))) :=
  ⟨⟨rfl, rfl⟩,
    run_code_prompt_fragment catalog1 ⟨false⟩ (workerOf execPass) id
      (fun _ => "") world0 "print(1)" "editor" 0 0 "intro" pageIntro
      "welcome" ⟨"print(1)", "editor", "intro", "welcome", 1, none⟩ execPass
      (by decide) (by decide) (by decide) rfl rfl rfl⟩

theorem move_step_last_write_wins_witness :
    ((page_slugs_list catalog1).Nodup ∧ catalog1[0]? = some pageIntro ∧
      pyGet (page_slugs_list catalog1) 0 = some pageIntro.slug ∧
      pageIntro.step_names.Nodup) ∧
    ((userAtEnd.pages_progress.lookup pageIntro.slug = none →
      (current_state catalog1 userAtEnd)[0]? = some 0) ∧
    ((0 ≤ (0 : Int) ∧ (0 : Int) < (pageIntro.step_names.length : Int)) →
      ∃ st2, move_step catalog1 userAtEnd 0 0 =
          some (current_state catalog1 st2, st2) ∧
        (current_state catalog1 st2)[0]? = some (0 : Int).toNat) ∧
    (¬ (0 ≤ (0 : Int) ∧ (0 : Int) < (pageIntro.step_names.length : Int)) →
      move_step catalog1 userAtEnd 0 0 =
        some (current_state catalog1 userAtEnd, userAtEnd))) :=
  ⟨⟨by decide, rfl, by decide, by decide⟩,
    move_step_last_write_wins catalog1 userAtEnd 0 0 0 pageIntro
      (by decide) rfl (by decide) (by decide)⟩

theorem api_view_catches_all_witness :
    dispatch catalog1 ⟨false⟩ (workerOf execPass) id (fun _ => "") id id
      world0 (.moveStep 5 0) = none ∧
    api_view catalog1 ⟨false⟩ (workerOf execPass) id (fun _ => "") id id
      "tb" world0 (some (.moveStep 5 0)) =
      (⟨errorResponse "tb", true⟩, world0) ∧
    (api_view catalog1 ⟨false⟩ (workerOf execPass) id (fun _ => "") id id
      "tb" world0 (some (.moveStep 5 0))).1.response.isDict = true :=
  ⟨rfl,
    (api_view_catches_all catalog1 ⟨false⟩ (workerOf execPass) id
      (fun _ => "") id id "tb" world0 (some (.moveStep 5 0))).2.2.1
      (.moveStep 5 0) rfl rfl,
    (api_view_catches_all catalog1 ⟨false⟩ (workerOf execPass) id
      (fun _ => "") id id "tb" world0 (some (.moveStep 5 0))).1⟩

theorem negative_index_resolution_witness :
    (-((catalog1.length : Nat) : Int) ≤ (-1 : Int) ∧ (-1 : Int) < 0) ∧
    ((pyGet (page_slugs_list catalog1) (-1) =
        (page_slugs_list catalog1)[(((catalog1.length : Nat) : Int) +
          (-1)).toNat]? ∧
      (pyGet (page_slugs_list catalog1) (-1)).isSome = true) ∧
    (move_step catalog1 user0 (-1) (-1) =
        move_step catalog1 user0 (((catalog1.length : Nat) : Int) + (-1))
          (-1) ∧
      (move_step catalog1 user0 (-1) (-1)).isSome = true) ∧
    (set_page catalog1 user0 (-1) =
        set_page catalog1 user0 (((catalog1.length : Nat) : Int) + (-1)) ∧
      (set_page catalog1 user0 (-1)).isSome = true) ∧
    (run_code catalog1 ⟨false⟩ (workerOf execPass) id (fun _ => "")
        world0 "x" "editor" (-1) (-1) =
      run_code catalog1 ⟨false⟩ (workerOf execPass) id (fun _ => "")
        world0 "x" "editor" (((catalog1.length : Nat) : Int) + (-1)) (-1)) ∧
    (get_solution catalog1 id id (-1) (-1) =
      get_solution catalog1 id id
        (((catalog1.length : Nat) : Int) + (-1)) (-1)) ∧
    (∀ steps : List String, -(steps.length : Int) ≤ (-1 : Int) →
      (-1 : Int) < 0 →
      pyGet steps (-1) =
          steps[((steps.length : Int) + (-1)).toNat]? ∧
        (pyGet steps (-1)).isSome = true) ∧
    (∀ slug page step_name,
      pyGet (page_slugs_list catalog1) (-1) = some slug →
      lookupPage catalog1 slug = some page →
      pyGet page.step_names (-1) = some step_name →
      (run_code catalog1 ⟨false⟩ (workerOf execPass) id (fun _ => "")
        world0 "x" "editor" (-1) (-1)).isSome = true) ∧
    (∀ slug page step_name sd,
      pyGet (page_slugs_list catalog1) (-1) = some slug →
      lookupPage catalog1 slug = some page →
      pyGet page.step_names (-1) = some step_name →
      page.step_defs.lookup step_name = some sd →
      (get_solution catalog1 id id (-1) (-1)).isSome = true)) :=
  ⟨⟨by decide, by decide⟩,
    negative_index_resolution catalog1 ⟨false⟩ (workerOf execPass) id
      (fun _ => "") id id user0 world0 "x" "editor" (-1) (-1)
      (by decide) (by decide)⟩

end Futurecoder
